import Mathlib

/-!
Verification of the Figmux navigation/popup policy engine and tab-lifecycle
state machine (src/main.js) via a shallow embedding in Lean 4.

The embedding translates the pure URL classifiers, the popup/navigation
policy handlers, the tab-manager operations (createTab / closeTab /
activateTab / cycleTabs) and the persistence round trip (queuePersistTabState
payload construction, loadSavedTabState filtering, restoreTabs) into
executable Lean definitions.  Engine-level side effects that do not touch
the modelled state (view attachment, focus, IPC broadcasts, the debounce
timer, disk I/O) are elided; the pure state transitions are kept faithful
to the JavaScript source.
-/

/-! ### String helpers

List-of-characters counterparts of the JavaScript string operations used by
the classifiers (`startsWith`, `endsWith`, template rendering of decimal
numbers).  They are written over `List Char` so that concrete witnesses
evaluate by kernel reduction. -/

/-- JavaScript `s.startsWith(p)`. -/
def strStartsWith (s p : String) : Bool :=
  p.data.isPrefixOf s.data

/-- JavaScript `s.endsWith(p)`. -/
def strEndsWith (s p : String) : Bool :=
  p.data.isSuffixOf s.data

/-- Fuel-based rendering of a natural number in decimal, most significant
digit first.  The fuel argument only serves structural recursion; any fuel
larger than the number renders it fully. -/
def toDecimalAux : Nat → Nat → List Char
  | 0, _ => []
  | fuel + 1, n =>
    if n < 10 then [Nat.digitChar n]
    else toDecimalAux fuel (n / 10) ++ [Nat.digitChar (n % 10)]

/-- Decimal rendering of a natural number, modelling the JavaScript template
interpolation of a counter value (always enough fuel). -/
def natToString (n : Nat) : String :=
  String.mk (toDecimalAux (n + 1) n)

/-- Value of a decimal digit list (used to invert `toDecimalAux`). -/
def decVal (l : List Char) : Nat :=
  l.foldl (fun acc c => acc * 10 + (c.toNat - 48)) 0

theorem digitChar_val : ∀ n, n < 10 → (Nat.digitChar n).toNat - 48 = n := by
  decide

theorem decVal_append_digit (l : List Char) (c : Char) :
    decVal (l ++ [c]) = decVal l * 10 + (c.toNat - 48) := by
  simp [decVal, List.foldl_append]

theorem toDecimalAux_val : ∀ fuel n, n < fuel → decVal (toDecimalAux fuel n) = n := by
  intro fuel
  induction fuel with
  | zero => intro n h; omega
  | succ f ih =>
    intro n h
    by_cases h10 : n < 10
    · simp [toDecimalAux, h10, decVal, digitChar_val n h10]
    · have hn : 0 < n := by omega
      have hdiv : n / 10 < n := Nat.div_lt_self hn (by omega)
      have hfuel : n / 10 < f := by omega
      simp only [toDecimalAux, h10, if_false]
      rw [decVal_append_digit, ih (n / 10) hfuel,
        digitChar_val (n % 10) (Nat.mod_lt n (by omega))]
      omega

theorem natToString_inj {a b : Nat} (h : natToString a = natToString b) : a = b := by
  have hdata : toDecimalAux (a + 1) a = toDecimalAux (b + 1) b :=
    congrArg String.data h
  have ha := toDecimalAux_val (a + 1) a (Nat.lt_succ_self a)
  have hb := toDecimalAux_val (b + 1) b (Nat.lt_succ_self b)
  rw [← ha, ← hb, hdata]

/-! ### URL classifier constants (src/main.js lines 14-24) -/

def FIGMA_HOME : String := "https://www.figma.com"

def FIGMA_RECENTS : String := "https://www.figma.com/files/recent"

def GOOGLE_OAUTH_HOSTS : List String :=
  ["accounts.google.com", "oauth2.googleapis.com", "apis.google.com"]

def GOOGLE_AUTH_RELAY_SUFFIX : String := ".googleusercontent.com"

def FIGMA_AUTH_PATH_PREFIXES : List String := ["/login", "/signup", "/oauth"]

def ABOUT_BLANK : String := "about:blank"

/-! ### URL parsing

`parseHttpsUrl` in the source calls the platform WHATWG `new URL` parser and
keeps only the `https:` results.  The model below reproduces that composite
behaviour for the fields the classifiers read (`hostname`, `pathname`):
input trimming, scheme recognition, the special-scheme slash skipping,
userinfo stripping at the last `@`, port validation, bracketed hosts, host
and scheme lowercasing, and query/fragment removal.  Inputs that are not
`https` URLs yield `none` exactly as `parseHttpsUrl` does, whether the
platform parser would throw or parse them under another scheme.  Host
forbidden-character checks, IDNA mapping, percent-encoding and path
dot-segment normalization are outside the modelled fragment (none of the
URLs exercised below use them). -/

structure ParsedUrl where
  hostname : String
  pathname : String
deriving DecidableEq, Repr

/-- Split a character list at the first `:`; `none` when there is none. -/
def splitAtColon : List Char → Option (List Char × List Char)
  | [] => none
  | c :: cs =>
    if c = ':' then some ([], cs)
    else (splitAtColon cs).map (fun p => (c :: p.1, p.2))

/-- Longest stop-free head together with the remainder. -/
def takeUntil (stop : Char → Bool) : List Char → List Char × List Char
  | [] => ([], [])
  | c :: cs =>
    if stop c then ([], c :: cs)
    else
      let r := takeUntil stop cs
      (c :: r.1, r.2)

/-- Special-scheme URLs skip every slash or backslash before the authority. -/
def dropAuthSlashes : List Char → List Char
  | [] => []
  | c :: cs => if c = '/' || c = '\\' then dropAuthSlashes cs else c :: cs

/-- Keep only the part after the last `@` (userinfo stripping). -/
def afterLastAt (l : List Char) : List Char :=
  if l.contains '@' then (l.reverse.takeWhile (fun c => c ≠ '@')).reverse else l

/-- A valid (possibly empty) port: all digits, value at most 65535. -/
def validPort (l : List Char) : Bool :=
  l.all Char.isDigit && (l.isEmpty || decVal l ≤ 65535)

/-- Split the authority into the host part, validating the port. -/
def parseHostPort : List Char → Option (List Char)
  | '[' :: rest =>
    let r := takeUntil (fun c => c = ']') rest
    match r.2 with
    | ']' :: restAfter =>
      match restAfter with
      | [] => some ('[' :: r.1 ++ [']'])
      | ':' :: port => if validPort port then some ('[' :: r.1 ++ [']']) else none
      | _ => none
    | _ => none
  | l =>
    let r := takeUntil (fun c => c = ':') l
    match r.2 with
    | ':' :: port => if validPort port then some r.1 else none
    | _ => some r.1

/-- Path of a special-scheme URL: starts at the first slash after the
authority, drops query and fragment, maps backslashes to slashes, and
defaults to `/`. -/
def parsePath (tail : List Char) : List Char :=
  match tail with
  | [] => ['/']
  | c :: _ =>
    if c = '/' || c = '\\' then
      ((takeUntil (fun c2 => c2 = '?' || c2 = '#') tail).1).map
        (fun c2 => if c2 = '\\' then '/' else c2)
    else ['/']

/-- `parseHttpsUrl` (src/main.js lines 102-112): parse the input with the
platform URL parser and return it only when the scheme is `https:`. -/
def parseHttpsUrl (input : String) : Option ParsedUrl :=
  let cleaned :=
    ((input.data.dropWhile (fun c => c.toNat ≤ 32)).reverse.dropWhile
        (fun c => c.toNat ≤ 32)).reverse.filter
      (fun c => c ≠ '\t' && c ≠ '\n' && c ≠ '\r')
  match splitAtColon cleaned with
  | none => none
  | some (scheme, rest) =>
    if scheme.map Char.toLower = "https".data then
      let afterSlashes := dropAuthSlashes rest
      let split := takeUntil (fun c => c = '/' || c = '\\' || c = '?' || c = '#') afterSlashes
      match parseHostPort (afterLastAt split.1) with
      | none => none
      | some host =>
        if host.isEmpty then none
        else
          some { hostname := String.mk (host.map Char.toLower),
                 pathname := String.mk (parsePath split.2) }
    else none

/-! ### URL classifiers (src/main.js lines 114-171) -/

/-- `isAboutBlankUrl` (lines 114-120). -/
def isAboutBlankUrl (input : String) : Bool :=
  if input = "" then true
  else input = ABOUT_BLANK || strStartsWith input (ABOUT_BLANK ++ "#")

/-- `isGoogleAuthDomain` (lines 122-129). -/
def isGoogleAuthDomain (hostname : String) : Bool :=
  GOOGLE_OAUTH_HOSTS.contains hostname ||
    hostname = "google.com" ||
    strEndsWith hostname ".google.com" ||
    strEndsWith hostname GOOGLE_AUTH_RELAY_SUFFIX

/-- `isFigmaUrl` (lines 131-138). -/
def isFigmaUrl (input : String) : Bool :=
  match parseHttpsUrl input with
  | none => false
  | some parsed => parsed.hostname = "figma.com" || strEndsWith parsed.hostname ".figma.com"

/-- `isOAuthUrl` (lines 140-155). -/
def isOAuthUrl (input : String) : Bool :=
  match parseHttpsUrl input with
  | none => false
  | some parsed =>
    if isGoogleAuthDomain parsed.hostname then true
    else if !isFigmaUrl input then false
    else FIGMA_AUTH_PATH_PREFIXES.any (fun pre => strStartsWith parsed.pathname pre)

/-- `isAllowedAuthOrFigmaUrl` (lines 157-159). -/
def isAllowedAuthOrFigmaUrl (input : String) : Bool :=
  isOAuthUrl input || isFigmaUrl input

/-- `shouldOpenAuthPopup` (lines 161-167). -/
def shouldOpenAuthPopup (url referrerUrl : String) : Bool :=
  if isOAuthUrl url || isAboutBlankUrl url then true
  else isOAuthUrl referrerUrl && isFigmaUrl url

/-- `canRestoreUrl` (lines 169-171). -/
def canRestoreUrl (input : String) : Bool :=
  (parseHttpsUrl input).isSome && (isFigmaUrl input || isOAuthUrl input)

example : parseHttpsUrl "https://www.figma.com/files/recent" =
    some { hostname := "www.figma.com", pathname := "/files/recent" } := by decide

example : isFigmaUrl "https://www.figma.com/file/abc" = true := by decide

example : isOAuthUrl "https://accounts.google.com/o/oauth2/v2/auth" = true := by decide

example : isOAuthUrl "https://www.figma.com/login" = true := by decide

example : isOAuthUrl "https://www.evil.com/login" = false := by decide

example : isOAuthUrl "https://www.figma.com/files/recent" = false := by decide

example : parseHttpsUrl "" = none := by decide

example : parseHttpsUrl "http://example.com" = none := by decide

example : parseHttpsUrl "https://user:pw@www.figma.com:8443/login" =
    some { hostname := "www.figma.com", pathname := "/login" } := by decide

/-! ### Tab records and tab-manager state (src/main.js lines 33-42, 326-346)

The JavaScript module state consists of `mainWindow` (modelled by its
liveness, the only property the tab manager reads for control flow),
`activeTabId`, `tabIdCounter`, the insertion-ordered id-to-tab `Map`
(modelled as an association list with `Map` semantics) and the `tabOrder`
array.  The `WebContentsView` handle owned by each tab is engine state with
no bearing on the modelled transitions and is elided from the record. -/

structure Tab where
  id : String
  title : String
  url : String
  isLoading : Bool
  canGoBack : Bool
  canGoForward : Bool
deriving DecidableEq, Repr

structure TabState where
  mainWindowAlive : Bool
  activeTabId : Option String
  tabIdCounter : Nat
  tabs : List (String × Tab)
  tabOrder : List String
deriving DecidableEq, Repr

/-- JavaScript `Map.get`. -/
def mapGet : List (String × Tab) → String → Option Tab
  | [], _ => none
  | p :: rest, k => if p.1 = k then some p.2 else mapGet rest k

/-- JavaScript `Map.set`: replace in place when the key exists, else append. -/
def mapSet : List (String × Tab) → String → Tab → List (String × Tab)
  | [], k, v => [(k, v)]
  | p :: rest, k, v => if p.1 = k then (k, v) :: rest else p :: mapSet rest k v

/-- JavaScript `Map.delete`. -/
def mapDelete : List (String × Tab) → String → List (String × Tab)
  | [], _ => []
  | p :: rest, k => if p.1 = k then rest else p :: mapDelete rest k

/-- JavaScript `Array.indexOf`: first index, `-1` when absent. -/
def jsIndexOf : List String → String → Int
  | [], _ => -1
  | x :: xs, a =>
    if x = a then 0
    else
      let r := jsIndexOf xs a
      if r < 0 then -1 else r + 1

/-- Falsiness of a nullable JavaScript string (`null`, `undefined` or `""`). -/
def jsFalsyOpt : Option String → Bool
  | none => true
  | some s => s = ""

/-- `nextTabId` (lines 326-329) renders the bumped counter as `tab-N`. -/
def mkId (n : Nat) : String := "tab-" ++ natToString n

/-- `activateTab` (lines 658-684).  View re-parenting, focus, the state
broadcast and the persistence debounce do not touch the modelled state. -/
def activateTab (st : TabState) (tabId : String) : TabState :=
  if !st.mainWindowAlive then st
  else
    match mapGet st.tabs tabId with
    | none => st
    | some _ =>
      if st.activeTabId = some tabId then st
      else { st with activeTabId := some tabId }

/-- The tab record allocated by `createTab` (lines 691-705): the safe URL
falls back to `FIGMA_HOME` when the secure-URL parse fails, the title starts
at the fixed placeholder, and the flags start cleared. -/
def newTabRecord (id url : String) : Tab :=
  { id := id, title := "Figma",
    url := if (parseHttpsUrl url).isSome then url else FIGMA_HOME,
    isLoading := false, canGoBack := false, canGoForward := false }

/-- `createTab` (lines 686-719).  The `id = nextTabId()` default argument is
evaluated before the window-liveness guard, so a call without an explicit id
bumps the counter even when the window is absent. -/
def createTab (st : TabState) (urlArg : Option String) (activate : Bool)
    (idArg : Option String) : TabState × Option String :=
  let url := urlArg.getD FIGMA_RECENTS
  let afterId : TabState × String :=
    match idArg with
    | some i => (st, i)
    | none => ({ st with tabIdCounter := st.tabIdCounter + 1 }, mkId (st.tabIdCounter + 1))
  let st1 := afterId.1
  let id := afterId.2
  if !st1.mainWindowAlive then (st1, none)
  else
    let tab := newTabRecord id url
    let st2 := { st1 with tabs := mapSet st1.tabs id tab, tabOrder := st1.tabOrder ++ [id] }
    let st3 := if activate || jsFalsyOpt st2.activeTabId then activateTab st2 id else st2
    (st3, some id)

/-- `closeTab` (lines 721-757).  Note there is no window-liveness guard at
the top: only the view detach and the replacement `createTab` observe it. -/
def closeTab (st : TabState) (tabId? : Option String) : TabState :=
  if jsFalsyOpt tabId? then st
  else
    match tabId? with
    | none => st
    | some tid =>
      match mapGet st.tabs tid with
      | none => st
      | some _ =>
        let tabIndex := jsIndexOf st.tabOrder tid
        let order2 := st.tabOrder.erase tid
        let isActive := st.activeTabId = some tid
        let st1 := { st with tabOrder := order2, tabs := mapDelete st.tabs tid }
        if order2.length = 0 then
          (createTab { st1 with activeTabId := none } (some FIGMA_RECENTS) true none).1
        else if isActive then
          let nextIndex := min tabIndex ((order2.length : Int) - 1)
          if nextIndex < 0 then st1
          else
            match order2[nextIndex.toNat]? with
            | some nid => activateTab st1 nid
            | none => st1
        else st1

/-- `cycleTabs` (lines 759-772). -/
def cycleTabs (st : TabState) (reverse : Bool) : TabState :=
  if st.tabOrder.length < 2 || jsFalsyOpt st.activeTabId then st
  else
    match st.activeTabId with
    | none => st
    | some active =>
      let currentIndex := jsIndexOf st.tabOrder active
      if currentIndex < 0 then st
      else
        let len : Int := st.tabOrder.length
        let offset : Int := if reverse then -1 else 1
        let nextIndex := (currentIndex + offset + len) % len
        match st.tabOrder[nextIndex.toNat]? with
        | some nid => activateTab st nid
        | none => st

/-- Interactive tab-manager operations (shortcuts and IPC commands pass no
explicit id to `createTab`; the id argument is used only by restoration). -/
inductive TabOp where
  | create (url : Option String) (activate : Bool)
  | close (tabId : Option String)
  | activate (tabId : String)
  | cycle (reverse : Bool)

def applyOp (st : TabState) : TabOp → TabState
  | .create url activate => (createTab st url activate none).1
  | .close tid => closeTab st tid
  | .activate tid => activateTab st tid
  | .cycle rev => cycleTabs st rev

def runOps (st : TabState) (ops : List TabOp) : TabState :=
  ops.foldl applyOp st

/-! ### Popup and navigation policy handlers (src/main.js lines 461-517) -/

inductive PopupVerdict where
  | allowAuthPopup
  | redirectToNewTab
  | deflectExternal
deriving DecidableEq, Repr

/-- An ordinary tab's `setWindowOpenHandler` (lines 461-476): verdict plus
its effect on the tab-manager state (`routeExternal` and the popup window
itself do not touch the modelled state). -/
def tabWindowOpen (st : TabState) (url referrerUrl : String) :
    PopupVerdict × TabState :=
  if shouldOpenAuthPopup url referrerUrl then (.allowAuthPopup, st)
  else if isFigmaUrl url then (.redirectToNewTab, (createTab st (some url) true none).1)
  else (.deflectExternal, st)

/-- The verdict component of an ordinary tab's popup handler. -/
def ordinaryPopupDecision (url referrerUrl : String) : PopupVerdict :=
  if shouldOpenAuthPopup url referrerUrl then .allowAuthPopup
  else if isFigmaUrl url then .redirectToNewTab
  else .deflectExternal

/-- A transient auth popup's own `setWindowOpenHandler` (lines 492-502):
allow further auth popups, deflect everything else externally. -/
def popupWindowOpenDecision (url referrerUrl : String) : PopupVerdict :=
  if shouldOpenAuthPopup url referrerUrl then .allowAuthPopup
  else .deflectExternal

inductive NavVerdict where
  | proceed
  | deflect
deriving DecidableEq, Repr

/-- An ordinary tab's `will-navigate` handler (lines 505-510): cancel and
deflect unless the destination is an allowed auth or Figma URL; the tab
record is untouched by the handler. -/
def tabWillNavigate (tab : Tab) (url : String) : NavVerdict × Tab :=
  if isAllowedAuthOrFigmaUrl url then (.proceed, tab) else (.deflect, tab)

/-- A transient auth popup's `will-navigate` handler (lines 485-490). -/
def popupWillNavigateDecision (url : String) : NavVerdict :=
  if isAllowedAuthOrFigmaUrl url then .proceed else .deflect

/-- The `page-title-updated` handler (lines 512-517): `title || 'Figma'`. -/
def pageTitleUpdated (tab : Tab) (title : String) : Tab :=
  { tab with title := if title = "" then "Figma" else title }

/-! ### Persistence (src/main.js lines 377-398, 774-828)

The debounce timer, JSON encoding and disk I/O are elided: `persistPayload`
is the snapshot the debounced writer serializes, and `loadSavedTabState`
receives an already-decoded snapshot (a read or JSON-parse failure is the
`none` case of `restoreTabs`).  In the typed model every entry has string
`id` and `url` fields, so the `typeof` guards of the loader are always
satisfied. -/

structure PersistedTab where
  id : String
  url : String
  title : String
deriving DecidableEq, Repr

structure PersistedState where
  activeTabId : Option String
  tabs : List PersistedTab
deriving DecidableEq, Repr

/-- The payload built by `queuePersistTabState` (lines 377-398):
`tabOrder.map(get).filter(Boolean)` projected to `{id, url, title}`. -/
def persistPayload (st : TabState) : PersistedState :=
  { activeTabId := st.activeTabId,
    tabs := (st.tabOrder.filterMap (mapGet st.tabs)).map
      (fun t => { id := t.id, url := t.url, title := t.title }) }

structure RestoredTab where
  id : String
  url : String
deriving DecidableEq, Repr

structure RestoredState where
  activeTabId : Option String
  tabs : List RestoredTab
deriving DecidableEq, Repr

/-- `entry.id.replace('tab-', '')`: drop the first occurrence of `tab-`. -/
def stripFirstTabDash : List Char → List Char
  | [] => []
  | c :: cs =>
    if ("tab-".data).isPrefixOf (c :: cs) then List.drop 4 (c :: cs)
    else c :: stripFirstTabDash cs

/-- Models `Number(entry.id.replace('tab-', ''))` under the `isFinite`
guard, for the canonical decimal suffixes this program writes; exotic
numeric spellings (signs, fractions, exponents, embedded whitespace) are
not modelled — no proved property depends on them. -/
def idNumericSuffix (id : String) : Option Nat :=
  let rest := stripFirstTabDash id.data
  if rest.isEmpty || !rest.all Char.isDigit then none else some (decVal rest)

/-- One loop iteration of `loadSavedTabState` (lines 783-801): skip entries
whose URL is not restorable, keep `{id, url}` of the others and advance the
counter accumulator past a finite numeric suffix. -/
def loadStep (acc : Nat × List RestoredTab) (e : PersistedTab) : Nat × List RestoredTab :=
  if canRestoreUrl e.url then
    (match idNumericSuffix e.id with
      | some n => max acc.1 n
      | none => acc.1,
     acc.2 ++ [{ id := e.id, url := e.url }])
  else acc

/-- `loadSavedTabState` (lines 774-810) on a decoded snapshot: keep the
entries whose URL passes `canRestoreUrl`, in order, and advance the id
counter past every finite numeric suffix of a kept id. -/
def loadSavedTabState (counter : Nat) (p : PersistedState) : Nat × RestoredState :=
  let r := p.tabs.foldl loadStep (counter, [])
  (r.1, { activeTabId := p.activeTabId, tabs := r.2 })

/-- `activateTab(tabOrder[0])`: with an empty order the argument is
`undefined` and the activation is a no-op. -/
def activateFirst (st : TabState) : TabState :=
  match st.tabOrder with
  | [] => st
  | first :: _ => activateTab st first

/-- One restoration step (line 820): recreate a saved entry without
activating it, under its saved id. -/
def restoreStep (s : TabState) (e : RestoredTab) : TabState :=
  (createTab s (some e.url) false (some e.id)).1

/-- `restoreTabs` (lines 812-828).  `saved = none` models a missing or
unparseable snapshot file. -/
def restoreTabs (st : TabState) (saved : Option PersistedState) : TabState :=
  match saved with
  | none => (createTab st (some FIGMA_RECENTS) true none).1
  | some p =>
    let loaded := loadSavedTabState st.tabIdCounter p
    let st0 := { st with tabIdCounter := loaded.1 }
    let state := loaded.2
    if state.tabs.length = 0 then (createTab st0 (some FIGMA_RECENTS) true none).1
    else
      let st1 := state.tabs.foldl restoreStep st0
      match state.activeTabId with
      | some a =>
        if a ≠ "" ∧ (mapGet st1.tabs a).isSome = true then activateTab st1 a
        else activateFirst st1
      | none => activateFirst st1

/-- The ids of the tabs whose URL passes the restorable predicate, in
collection order. -/
def restorableIds (st : TabState) : List String :=
  st.tabOrder.filter (fun id =>
    match mapGet st.tabs id with
    | some t => canRestoreUrl t.url
    | none => false)

/-! ### Well-formedness invariant of the tab-manager state

The states reachable by the program keep the `Map` keys aligned with
`tabOrder`, issue ids through the counter, and store each tab under its own
id.  This is the induction hypothesis for the collection invariants. -/

def TabInv (st : TabState) : Prop :=
  st.tabs.map Prod.fst = st.tabOrder ∧
  st.tabOrder.Nodup ∧
  (∀ a, st.activeTabId = some a → a ∈ st.tabOrder) ∧
  (∀ k, mkId k ∈ st.tabOrder → k ≤ st.tabIdCounter) ∧
  (∀ p ∈ st.tabs, p.2.id = p.1)

/-! ### Basic lemmas about the map and array helpers -/

theorem mapGet_mem {m : List (String × Tab)} {k : String} {t : Tab}
    (h : mapGet m k = some t) : (k, t) ∈ m := by
  induction m with
  | nil => simp [mapGet] at h
  | cons p rest ih =>
    obtain ⟨a, b⟩ := p
    simp only [mapGet] at h
    by_cases hk : a = k
    · rw [if_pos hk] at h
      injection h with h2
      subst h2
      subst hk
      exact List.mem_cons_self _ _
    · rw [if_neg hk] at h
      exact List.mem_cons_of_mem _ (ih h)

theorem mapGet_isSome_iff (m : List (String × Tab)) (k : String) :
    (mapGet m k).isSome = true ↔ k ∈ m.map Prod.fst := by
  induction m with
  | nil => simp [mapGet]
  | cons p rest ih =>
    by_cases hk : p.1 = k
    · simp [mapGet, hk]
    · simp [mapGet, hk, ih, Ne.symm hk]

theorem mapSet_of_not_mem {m : List (String × Tab)} {k : String} (v : Tab)
    (h : k ∉ m.map Prod.fst) : mapSet m k v = m ++ [(k, v)] := by
  induction m with
  | nil => rfl
  | cons p rest ih =>
    simp only [List.map_cons, List.mem_cons] at h
    push_neg at h
    simp [mapSet, Ne.symm h.1, ih h.2]

theorem mapGet_mapSet_self (m : List (String × Tab)) (k : String) (v : Tab) :
    mapGet (mapSet m k v) k = some v := by
  induction m with
  | nil => simp [mapSet, mapGet]
  | cons p rest ih =>
    by_cases hk : p.1 = k
    · simp [mapSet, hk, mapGet]
    · simp [mapSet, hk, mapGet, ih]

theorem mapDelete_keys (m : List (String × Tab)) (k : String) :
    (mapDelete m k).map Prod.fst = (m.map Prod.fst).erase k := by
  induction m with
  | nil => rfl
  | cons p rest ih =>
    by_cases hk : p.1 = k
    · simp [mapDelete, hk, List.erase_cons]
    · simp [mapDelete, hk, List.erase_cons, ih]

theorem mapDelete_subset {m : List (String × Tab)} {k : String} {p : String × Tab}
    (h : p ∈ mapDelete m k) : p ∈ m := by
  induction m with
  | nil => simp [mapDelete] at h
  | cons q rest ih =>
    by_cases hk : q.1 = k
    · simp only [mapDelete, if_pos hk] at h
      exact List.mem_cons_of_mem _ h
    · simp only [mapDelete, if_neg hk, List.mem_cons] at h
      rcases h with h | h
      · exact h ▸ List.mem_cons_self _ _
      · exact List.mem_cons_of_mem _ (ih h)

theorem mapGet_append (m1 m2 : List (String × Tab)) (k : String) :
    mapGet (m1 ++ m2) k =
      match mapGet m1 k with
      | some t => some t
      | none => mapGet m2 k := by
  induction m1 with
  | nil => simp [mapGet]
  | cons p rest ih =>
    by_cases hk : p.1 = k
    · simp [mapGet, hk]
    · simp [mapGet, hk, ih]

theorem jsIndexOf_nonneg {l : List String} {a : String} (h : a ∈ l) :
    0 ≤ jsIndexOf l a := by
  induction l with
  | nil => simp at h
  | cons x xs ih =>
    by_cases hx : x = a
    · simp [jsIndexOf, hx]
    · rcases List.mem_cons.mp h with h' | h'
      · exact absurd h'.symm hx
      · have := ih h'
        simp only [jsIndexOf, if_neg hx]
        omega

/-! ### Field-level characterizations of the tab-manager operations -/

theorem activateTab_tabOrder (st : TabState) (i : String) :
    (activateTab st i).tabOrder = st.tabOrder := by
  unfold activateTab
  repeat' split
  all_goals rfl

theorem activateTab_tabs (st : TabState) (i : String) :
    (activateTab st i).tabs = st.tabs := by
  unfold activateTab
  repeat' split
  all_goals rfl

theorem activateTab_counter (st : TabState) (i : String) :
    (activateTab st i).tabIdCounter = st.tabIdCounter := by
  unfold activateTab
  repeat' split
  all_goals rfl

theorem activateTab_alive (st : TabState) (i : String) :
    (activateTab st i).mainWindowAlive = st.mainWindowAlive := by
  unfold activateTab
  repeat' split
  all_goals rfl

theorem activateTab_dead {st : TabState} (i : String)
    (h : st.mainWindowAlive = false) : activateTab st i = st := by
  unfold activateTab
  rw [h]
  rfl

theorem activateTab_active {st : TabState} {i : String}
    (halive : st.mainWindowAlive = true) (hget : (mapGet st.tabs i).isSome = true) :
    (activateTab st i).activeTabId = some i := by
  unfold activateTab
  rw [halive]
  cases ht : mapGet st.tabs i with
  | none => rw [ht] at hget; simp at hget
  | some t =>
    simp only [Bool.not_true, Bool.false_eq_true, if_false, ht]
    split
    · assumption
    · rfl

theorem activateTab_active_cases (st : TabState) (i : String) :
    (activateTab st i).activeTabId = some i ∨
      (activateTab st i).activeTabId = st.activeTabId := by
  unfold activateTab
  split
  · right; rfl
  · split
    · right; rfl
    · split
      · right; rfl
      · left; rfl

/-- The id `createTab` uses: the supplied one, else the freshly issued one. -/
def createTabId (st : TabState) (idArg : Option String) : String :=
  idArg.getD (mkId (st.tabIdCounter + 1))

theorem createTab_dead {st : TabState} (urlArg : Option String) (activate : Bool)
    (idArg : Option String) (h : st.mainWindowAlive = false) :
    createTab st urlArg activate idArg =
      (match idArg with
        | some _ => st
        | none => { st with tabIdCounter := st.tabIdCounter + 1 }, none) := by
  cases idArg <;> simp [createTab, h]

theorem createTab_alive_tabOrder {st : TabState} (urlArg : Option String)
    (activate : Bool) (idArg : Option String) (h : st.mainWindowAlive = true) :
    (createTab st urlArg activate idArg).1.tabOrder =
      st.tabOrder ++ [createTabId st idArg] := by
  cases idArg <;>
    simp [createTab, h, createTabId, activateTab_tabOrder, apply_ite TabState.tabOrder]

theorem createTab_alive_tabs {st : TabState} (urlArg : Option String)
    (activate : Bool) (idArg : Option String) (h : st.mainWindowAlive = true)
    (hfresh : createTabId st idArg ∉ st.tabs.map Prod.fst) :
    (createTab st urlArg activate idArg).1.tabs =
      st.tabs ++
        [(createTabId st idArg,
          newTabRecord (createTabId st idArg) (urlArg.getD FIGMA_RECENTS))] := by
  cases idArg with
  | none =>
    simp only [createTabId, Option.getD_none] at hfresh
    have hset := mapSet_of_not_mem
      (newTabRecord (mkId (st.tabIdCounter + 1)) (urlArg.getD FIGMA_RECENTS)) hfresh
    simp [createTab, h, createTabId, activateTab_tabs, apply_ite TabState.tabs, hset]
  | some i =>
    simp only [createTabId, Option.getD_some] at hfresh
    have hset := mapSet_of_not_mem
      (newTabRecord i (urlArg.getD FIGMA_RECENTS)) hfresh
    simp [createTab, h, createTabId, activateTab_tabs, apply_ite TabState.tabs, hset]

theorem createTab_alive_active {st : TabState} (urlArg : Option String)
    (activate : Bool) (idArg : Option String) (h : st.mainWindowAlive = true) :
    (createTab st urlArg activate idArg).1.activeTabId =
      if activate || jsFalsyOpt st.activeTabId then some (createTabId st idArg)
      else st.activeTabId := by
  cases idArg with
  | none =>
    by_cases hcond : (activate || jsFalsyOpt st.activeTabId) = true
    · simp only [createTab, h, createTabId, hcond, Option.getD_none, Bool.not_true,
        Bool.false_eq_true, if_false, if_true]
      exact activateTab_active rfl (by simp [mapGet_mapSet_self])
    · simp [createTab, h, createTabId, hcond]
  | some i =>
    by_cases hcond : (activate || jsFalsyOpt st.activeTabId) = true
    · simp only [createTab, h, createTabId, hcond, Option.getD_some, Bool.not_true,
        Bool.false_eq_true, if_false, if_true]
      exact activateTab_active rfl (by simp [mapGet_mapSet_self])
    · simp [createTab, h, createTabId, hcond]

theorem createTab_alive_mem_new {st : TabState} (urlArg : Option String)
    (activate : Bool) (idArg : Option String) (h : st.mainWindowAlive = true) :
    mapGet (createTab st urlArg activate idArg).1.tabs (createTabId st idArg) =
      some (newTabRecord (createTabId st idArg) (urlArg.getD FIGMA_RECENTS)) := by
  cases idArg <;>
    simp [createTab, h, createTabId, activateTab_tabs, apply_ite TabState.tabs,
      mapGet_mapSet_self]

theorem createTab_alive (st : TabState) (urlArg : Option String) (activate : Bool)
    (idArg : Option String) :
    (createTab st urlArg activate idArg).1.mainWindowAlive = st.mainWindowAlive := by
  cases idArg <;> cases h : st.mainWindowAlive <;>
    simp [createTab, h, activateTab_alive, apply_ite TabState.mainWindowAlive]

theorem createTab_counter_noid (st : TabState) (urlArg : Option String)
    (activate : Bool) :
    (createTab st urlArg activate none).1.tabIdCounter = st.tabIdCounter + 1 := by
  cases h : st.mainWindowAlive <;>
    simp [createTab, h, activateTab_counter, apply_ite TabState.tabIdCounter]

theorem createTab_counter_id (st : TabState) (urlArg : Option String)
    (activate : Bool) (i : String) :
    (createTab st urlArg activate (some i)).1.tabIdCounter = st.tabIdCounter := by
  cases h : st.mainWindowAlive <;>
    simp [createTab, h, activateTab_counter, apply_ite TabState.tabIdCounter]

theorem createTab_snd {st : TabState} (urlArg : Option String) (activate : Bool)
    (idArg : Option String) (h : st.mainWindowAlive = true) :
    (createTab st urlArg activate idArg).2 = some (createTabId st idArg) := by
  cases idArg <;> simp [createTab, h, createTabId]

theorem strAppend_cancel {p a b : String} (h : p ++ a = p ++ b) : a = b := by
  have hd : p.data ++ a.data = p.data ++ b.data := congrArg String.data h
  exact congrArg String.mk (List.append_cancel_left hd)

theorem mkId_inj {a b : Nat} (h : mkId a = mkId b) : a = b :=
  natToString_inj (strAppend_cancel h)

theorem closeTab_alive (st : TabState) (tid? : Option String) :
    (closeTab st tid?).mainWindowAlive = st.mainWindowAlive := by
  simp only [closeTab]
  repeat' split
  all_goals simp [createTab_alive, activateTab_alive]

theorem cycleTabs_alive (st : TabState) (rev : Bool) :
    (cycleTabs st rev).mainWindowAlive = st.mainWindowAlive := by
  simp only [cycleTabs]
  repeat' split
  all_goals simp [activateTab_alive]

theorem cycleTabs_tabOrder (st : TabState) (rev : Bool) :
    (cycleTabs st rev).tabOrder = st.tabOrder := by
  simp only [cycleTabs]
  repeat' split
  all_goals simp [activateTab_tabOrder]

theorem cycleTabs_tabs (st : TabState) (rev : Bool) :
    (cycleTabs st rev).tabs = st.tabs := by
  simp only [cycleTabs]
  repeat' split
  all_goals simp [activateTab_tabs]

theorem applyOp_alive (st : TabState) (op : TabOp) :
    (applyOp st op).mainWindowAlive = st.mainWindowAlive := by
  cases op <;>
    simp [applyOp, createTab_alive, closeTab_alive, activateTab_alive, cycleTabs_alive]

/-- Every branch of `closeTab` on a live window leaves at least one tab:
the replacement default tab covers the emptied-collection branch. -/
theorem closeTab_length {st : TabState} (tid? : Option String)
    (halive : st.mainWindowAlive = true) (hne : 1 ≤ st.tabOrder.length) :
    1 ≤ (closeTab st tid?).tabOrder.length := by
  simp only [closeTab]
  split
  · exact hne
  · split
    · exact hne
    · split
      · exact hne
      · split
        · rw [createTab_alive_tabOrder _ _ _ (by simpa using halive)]
          simp
        · rename_i h0
          repeat' split
          all_goals simp only [activateTab_tabOrder]
          all_goals omega

/-! ### Preservation of the well-formedness invariant -/

theorem tabInv_activateTab {st : TabState} (i : String) (h : TabInv st) :
    TabInv (activateTab st i) := by
  obtain ⟨h1, h2, h3, h4, h5⟩ := h
  unfold activateTab
  split
  · exact ⟨h1, h2, h3, h4, h5⟩
  · split
    · exact ⟨h1, h2, h3, h4, h5⟩
    · rename_i t heq
      split
      · exact ⟨h1, h2, h3, h4, h5⟩
      · refine ⟨h1, h2, ?_, h4, h5⟩
        intro a ha
        injection ha with ha
        subst ha
        rw [← h1, ← mapGet_isSome_iff]
        simp [heq]

theorem tabInv_createTab {st : TabState} (urlArg : Option String) (activate : Bool)
    (h : TabInv st) : TabInv (createTab st urlArg activate none).1 := by
  obtain ⟨h1, h2, h3, h4, h5⟩ := h
  cases halive : st.mainWindowAlive with
  | false =>
    rw [createTab_dead _ _ _ halive]
    exact ⟨h1, h2, h3, fun k hk => Nat.le_succ_of_le (h4 k hk), h5⟩
  | true =>
    have hfreshOrder : mkId (st.tabIdCounter + 1) ∉ st.tabOrder := fun hmem =>
      absurd (h4 _ hmem) (by omega)
    have hfresh : createTabId st none ∉ st.tabs.map Prod.fst := by
      rw [h1]
      simpa [createTabId] using hfreshOrder
    have horder := createTab_alive_tabOrder urlArg activate none halive
    have htabs := createTab_alive_tabs urlArg activate none halive hfresh
    have hactive := createTab_alive_active urlArg activate none halive
    have hcounter := createTab_counter_noid st urlArg activate
    refine ⟨?_, ?_, ?_, ?_, ?_⟩
    · rw [htabs, horder, List.map_append, h1]
      rfl
    · rw [horder, List.nodup_append]
      refine ⟨h2, List.nodup_singleton _, ?_⟩
      intro a ha hb
      rw [List.mem_singleton] at hb
      subst hb
      apply hfreshOrder
      simpa [createTabId] using ha
    · intro a ha
      rw [hactive] at ha
      rw [horder]
      split at ha
      · injection ha with ha
        subst ha
        exact List.mem_append_right _ (List.mem_singleton_self _)
      · exact List.mem_append_left _ (h3 a ha)
    · intro k hk
      rw [horder] at hk
      rw [hcounter]
      rcases List.mem_append.mp hk with hk | hk
      · exact Nat.le_succ_of_le (h4 k hk)
      · rw [List.mem_singleton] at hk
        have : k = st.tabIdCounter + 1 := mkId_inj (by simpa [createTabId] using hk)
        omega
    · intro p hp
      rw [htabs] at hp
      rcases List.mem_append.mp hp with hp | hp
      · exact h5 p hp
      · rw [List.mem_singleton] at hp
        subst hp
        rfl

theorem tabInv_cycleTabs {st : TabState} (rev : Bool) (h : TabInv st) :
    TabInv (cycleTabs st rev) := by
  simp only [cycleTabs]
  repeat' split
  all_goals first
    | exact h
    | exact tabInv_activateTab _ h

/-- The invariant components needed before an activation, without requiring
validity of the current active id (used inside `closeTab`, where the closed
tab is still the recorded active id at that point). -/
theorem tabInv_activate_target {s : TabState} {i : String}
    (k1 : s.tabs.map Prod.fst = s.tabOrder) (k2 : s.tabOrder.Nodup)
    (k4 : ∀ k, mkId k ∈ s.tabOrder → k ≤ s.tabIdCounter)
    (k5 : ∀ p ∈ s.tabs, p.2.id = p.1)
    (halive : s.mainWindowAlive = true) (hmem : i ∈ s.tabOrder) :
    TabInv (activateTab s i) := by
  have hget : (mapGet s.tabs i).isSome = true := by
    rw [mapGet_isSome_iff, k1]
    exact hmem
  refine ⟨?_, ?_, ?_, ?_, ?_⟩
  · rw [activateTab_tabs, activateTab_tabOrder]
    exact k1
  · rw [activateTab_tabOrder]
    exact k2
  · intro a ha
    rw [activateTab_active halive hget] at ha
    injection ha with ha
    subst ha
    rw [activateTab_tabOrder]
    exact hmem
  · simpa only [activateTab_tabOrder, activateTab_counter] using k4
  · simpa only [activateTab_tabs] using k5

theorem tabInv_closeTab {st : TabState} (tid? : Option String)
    (halive : st.mainWindowAlive = true) (h : TabInv st) : TabInv (closeTab st tid?) := by
  obtain ⟨h1, h2, h3, h4, h5⟩ := h
  simp only [closeTab]
  split
  · exact ⟨h1, h2, h3, h4, h5⟩
  · split
    · exact ⟨h1, h2, h3, h4, h5⟩
    · split
      · exact ⟨h1, h2, h3, h4, h5⟩
      · rename_i tid hfalsy xscr t heq
        have tidmem : tid ∈ st.tabOrder := by
          rw [← h1, ← mapGet_isSome_iff]
          simp [heq]
        have keys1 : (mapDelete st.tabs tid).map Prod.fst = st.tabOrder.erase tid := by
          rw [mapDelete_keys, h1]
        have nodup1 := h2.erase tid
        have h4' : ∀ k, mkId k ∈ st.tabOrder.erase tid → k ≤ st.tabIdCounter :=
          fun k hk => h4 k (List.mem_of_mem_erase hk)
        have h5' : ∀ p ∈ mapDelete st.tabs tid, p.2.id = p.1 :=
          fun p hp => h5 p (mapDelete_subset hp)
        split
        · exact tabInv_createTab _ _
            ⟨keys1, nodup1, fun a ha => by simp at ha, h4', h5'⟩
        · rename_i hlen
          split
          · rename_i hisActive
            have hidx := jsIndexOf_nonneg tidmem
            split
            · rename_i hneg
              exfalso
              omega
            · rename_i hnonneg
              split
              · rename_i nid hget2
                exact tabInv_activate_target keys1 nodup1 h4' h5' halive
                  (List.getElem?_mem hget2)
              · rename_i hget2
                exfalso
                have hlt : (min (jsIndexOf st.tabOrder tid)
                    ((st.tabOrder.erase tid).length - 1 : Int)).toNat <
                      (st.tabOrder.erase tid).length := by
                  omega
                rw [List.getElem?_eq_getElem hlt] at hget2
                exact Option.noConfusion hget2
          · rename_i hnotActive
            refine ⟨keys1, nodup1, ?_, h4', h5'⟩
            intro a ha
            have hane : a ≠ tid := by
              rintro rfl
              exact hnotActive ha
            exact h2.mem_erase_iff.mpr ⟨hane, h3 a ha⟩

theorem tabInv_applyOp {st : TabState} (op : TabOp)
    (halive : st.mainWindowAlive = true) (h : TabInv st) : TabInv (applyOp st op) := by
  cases op with
  | create u a => exact tabInv_createTab u a h
  | close tid => exact tabInv_closeTab tid halive h
  | activate tid => exact tabInv_activateTab tid h
  | cycle rev => exact tabInv_cycleTabs rev h

theorem tabInv_runOps {st : TabState} (ops : List TabOp)
    (halive : st.mainWindowAlive = true) (h : TabInv st) : TabInv (runOps st ops) := by
  induction ops generalizing st with
  | nil => exact h
  | cons op rest ih =>
    exact ih (by rw [applyOp_alive]; exact halive) (tabInv_applyOp op halive h)

theorem applyOp_length {st : TabState} (op : TabOp)
    (halive : st.mainWindowAlive = true) (hne : 1 ≤ st.tabOrder.length) :
    1 ≤ (applyOp st op).tabOrder.length := by
  cases op with
  | create u a =>
    rw [applyOp, createTab_alive_tabOrder _ _ _ halive]
    simp
  | close tid => exact closeTab_length tid halive hne
  | activate tid =>
    rw [applyOp, activateTab_tabOrder]
    exact hne
  | cycle rev =>
    rw [applyOp, cycleTabs_tabOrder]
    exact hne

/-! ### Auxiliary classifier facts -/

theorem isFigmaUrl_parse {u : String} (h : isFigmaUrl u = true) :
    (parseHttpsUrl u).isSome = true := by
  unfold isFigmaUrl at h
  cases hp : parseHttpsUrl u <;> simp [hp] at h ⊢

theorem shouldOpenAuthPopup_iff (u r : String) :
    (shouldOpenAuthPopup u r = true) ↔
      (isOAuthUrl u = true ∨ isAboutBlankUrl u = true ∨
        (isOAuthUrl r = true ∧ isFigmaUrl u = true)) := by
  unfold shouldOpenAuthPopup
  by_cases h1 : isOAuthUrl u = true <;> by_cases h2 : isAboutBlankUrl u = true <;>
    simp [h1, h2]

/-! ### Concrete states used by the witnesses -/

def demoState : TabState :=
  { mainWindowAlive := true, activeTabId := none, tabIdCounter := 0,
    tabs := [], tabOrder := [] }

def demoTab : Tab :=
  { id := "tab-1", title := "Figma", url := FIGMA_RECENTS,
    isLoading := false, canGoBack := false, canGoForward := false }

def demoState1 : TabState :=
  { mainWindowAlive := true, activeTabId := some "tab-1", tabIdCounter := 1,
    tabs := [("tab-1", demoTab)], tabOrder := ["tab-1"] }

theorem demoState1_inv : TabInv demoState1 := by
  refine ⟨by decide, by decide, ?_, ?_, by decide⟩
  · intro a ha
    injection ha with ha
    subst ha
    exact List.mem_singleton_self _
  · intro k hk
    have hk' : mkId k = "tab-1" := by simpa [demoState1] using hk
    have := mkId_inj (hk'.trans (by decide : ("tab-1" : String) = mkId 1))
    show k ≤ 1
    omega

/-! ### Claim theorems -/

/-- C1: for every popup request from an ordinary tab with destination `u` and
referrer `r`, the handler yields exactly one of three verdicts: it allows an
in-app auth popup iff `isOAuthUrl u` or `isAboutBlankUrl u` or
(`isOAuthUrl r` and `isFigmaUrl u`); otherwise, if `isFigmaUrl u`, it
suppresses the popup and instead creates and activates a new ordinary tab
with URL `u`; otherwise it suppresses the popup and hands `u` to the
operating system's default handler. -/
theorem C1_popup_policy (st : TabState) (u r : String) :
    ((tabWindowOpen st u r).1 = PopupVerdict.allowAuthPopup ↔
      (isOAuthUrl u = true ∨ isAboutBlankUrl u = true ∨
        (isOAuthUrl r = true ∧ isFigmaUrl u = true))) ∧
    ((tabWindowOpen st u r).1 = PopupVerdict.redirectToNewTab ↔
      (¬(isOAuthUrl u = true ∨ isAboutBlankUrl u = true ∨
          (isOAuthUrl r = true ∧ isFigmaUrl u = true)) ∧ isFigmaUrl u = true)) ∧
    ((tabWindowOpen st u r).1 = PopupVerdict.deflectExternal ↔
      (¬(isOAuthUrl u = true ∨ isAboutBlankUrl u = true ∨
          (isOAuthUrl r = true ∧ isFigmaUrl u = true)) ∧ isFigmaUrl u = false)) ∧
    (st.mainWindowAlive = true →
      (tabWindowOpen st u r).1 = PopupVerdict.redirectToNewTab →
      (tabWindowOpen st u r).2.activeTabId = some (mkId (st.tabIdCounter + 1)) ∧
        mapGet (tabWindowOpen st u r).2.tabs (mkId (st.tabIdCounter + 1)) =
          some (newTabRecord (mkId (st.tabIdCounter + 1)) u) ∧
        (newTabRecord (mkId (st.tabIdCounter + 1)) u).url = u) := by
  refine ⟨?_, ?_, ?_, ?_⟩
  · rw [← shouldOpenAuthPopup_iff]
    unfold tabWindowOpen
    by_cases hA : shouldOpenAuthPopup u r = true <;>
      by_cases hF : isFigmaUrl u = true <;> simp [hA, hF]
  · rw [← shouldOpenAuthPopup_iff]
    unfold tabWindowOpen
    by_cases hA : shouldOpenAuthPopup u r = true <;>
      by_cases hF : isFigmaUrl u = true <;> simp [hA, hF]
  · rw [← shouldOpenAuthPopup_iff]
    unfold tabWindowOpen
    by_cases hA : shouldOpenAuthPopup u r = true <;>
      by_cases hF : isFigmaUrl u = true <;> simp [hA, hF]
  · intro halive hred
    unfold tabWindowOpen at hred ⊢
    by_cases hA : shouldOpenAuthPopup u r = true
    · simp [hA] at hred
    · by_cases hF : isFigmaUrl u = true
      · simp only [hA, hF, Bool.false_eq_true, if_false, if_true]
        refine ⟨?_, ?_, ?_⟩
        · rw [createTab_alive_active _ _ _ halive]
          simp [createTabId]
        · have := createTab_alive_mem_new (some u) true none halive
          simpa [createTabId] using this
        · simp [newTabRecord, isFigmaUrl_parse hF]
      · simp [hA, hF] at hred

theorem C1_witness :
    demoState.mainWindowAlive = true ∧
    (tabWindowOpen demoState "https://www.figma.com/file/abc"
        "https://www.figma.com/files/recent").1 = PopupVerdict.redirectToNewTab ∧
    ((tabWindowOpen demoState "https://www.figma.com/file/abc"
        "https://www.figma.com/files/recent").2.activeTabId =
          some (mkId (demoState.tabIdCounter + 1)) ∧
      mapGet (tabWindowOpen demoState "https://www.figma.com/file/abc"
          "https://www.figma.com/files/recent").2.tabs
          (mkId (demoState.tabIdCounter + 1)) =
        some (newTabRecord (mkId (demoState.tabIdCounter + 1))
          "https://www.figma.com/file/abc") ∧
      (newTabRecord (mkId (demoState.tabIdCounter + 1))
          "https://www.figma.com/file/abc").url = "https://www.figma.com/file/abc") :=
  ⟨rfl, by decide,
    (C1_popup_policy demoState "https://www.figma.com/file/abc"
      "https://www.figma.com/files/recent").2.2.2 rfl (by decide)⟩

/-- C2: a top-level navigation inside an ordinary tab to `u` proceeds in
place iff `u` is a Figma URL or an auth URL; otherwise the handler cancels
it, deflects `u` externally, and the tab record (url, title, history flags)
is left unchanged. -/
theorem C2_will_navigate (tab : Tab) (u : String) :
    ((tabWillNavigate tab u).1 = NavVerdict.proceed ↔
      (isFigmaUrl u = true ∨ isOAuthUrl u = true)) ∧
    ((tabWillNavigate tab u).1 = NavVerdict.deflect →
      (tabWillNavigate tab u).2.url = tab.url ∧
      (tabWillNavigate tab u).2.title = tab.title ∧
      (tabWillNavigate tab u).2.canGoBack = tab.canGoBack ∧
      (tabWillNavigate tab u).2.canGoForward = tab.canGoForward) := by
  unfold tabWillNavigate isAllowedAuthOrFigmaUrl
  by_cases h1 : isOAuthUrl u = true <;> by_cases h2 : isFigmaUrl u = true <;>
    simp [h1, h2]

theorem C2_witness :
    (tabWillNavigate demoTab "https://example.com").1 = NavVerdict.deflect ∧
    ((tabWillNavigate demoTab "https://example.com").2.url = demoTab.url ∧
      (tabWillNavigate demoTab "https://example.com").2.title = demoTab.title ∧
      (tabWillNavigate demoTab "https://example.com").2.canGoBack = demoTab.canGoBack ∧
      (tabWillNavigate demoTab "https://example.com").2.canGoForward =
        demoTab.canGoForward) :=
  ⟨by decide, (C2_will_navigate demoTab "https://example.com").2 (by decide)⟩

theorem runOps_alive (st : TabState) (ops : List TabOp) :
    (runOps st ops).mainWindowAlive = st.mainWindowAlive := by
  induction ops generalizing st with
  | nil => rfl
  | cons op rest ih => rw [runOps, List.foldl_cons, ← runOps, ih, applyOp_alive]

theorem runOps_length {st : TabState} (ops : List TabOp)
    (halive : st.mainWindowAlive = true) (hne : 1 ≤ st.tabOrder.length) :
    1 ≤ (runOps st ops).tabOrder.length := by
  induction ops generalizing st with
  | nil => exact hne
  | cons op rest ih =>
    exact ih (by rw [applyOp_alive]; exact halive) (applyOp_length op halive hne)

/-- C3: starting from a live window and a non-empty collection, after any
sequence of tab-manager operations a further `closeTab` still leaves at
least one tab: closing the last remaining tab creates a fresh default tab
within the same operation. -/
theorem C3_nonempty_after_close (ops : List TabOp) (st : TabState)
    (tid? : Option String) (halive : st.mainWindowAlive = true)
    (hne : 1 ≤ st.tabOrder.length) :
    1 ≤ (closeTab (runOps st ops) tid?).tabOrder.length :=
  closeTab_length tid? (by rw [runOps_alive]; exact halive) (runOps_length ops halive hne)

theorem C3_witness :
    demoState1.mainWindowAlive = true ∧
    1 ≤ demoState1.tabOrder.length ∧
    1 ≤ (closeTab (runOps demoState1 []) (some "tab-1")).tabOrder.length :=
  ⟨rfl, by decide, C3_nonempty_after_close [] demoState1 (some "tab-1") rfl (by decide)⟩

/-- C4: after any sequence of createTab/closeTab/activateTab/cycleTabs
operations on a live window from a well-formed state, a non-null active tab
id names a member of the collection: it is in the order list and has an
entry in the id-to-tab map. -/
theorem C4_active_id_valid (ops : List TabOp) (st : TabState)
    (halive : st.mainWindowAlive = true) (hinv : TabInv st) :
    ∀ a, (runOps st ops).activeTabId = some a →
      a ∈ (runOps st ops).tabOrder ∧
      (mapGet (runOps st ops).tabs a).isSome = true := by
  obtain ⟨h1, h2, h3, h4, h5⟩ := tabInv_runOps ops halive hinv
  intro a ha
  refine ⟨h3 a ha, ?_⟩
  rw [mapGet_isSome_iff, h1]
  exact h3 a ha

theorem C4_witness :
    demoState1.mainWindowAlive = true ∧
    (runOps demoState1 [TabOp.create none true]).activeTabId = some "tab-2" ∧
    ("tab-2" ∈ (runOps demoState1 [TabOp.create none true]).tabOrder ∧
      (mapGet (runOps demoState1 [TabOp.create none true]).tabs "tab-2").isSome = true) :=
  ⟨rfl, by decide,
    C4_active_id_valid [TabOp.create none true] demoState1 rfl demoState1_inv
      "tab-2" (by decide)⟩

/-- A dead-window state with one open tab, used to exercise the
window-absent behaviour of the tab manager. -/
def deadState : TabState :=
  { mainWindowAlive := false, activeTabId := some "tab-1", tabIdCounter := 1,
    tabs := [("tab-1", demoTab)], tabOrder := ["tab-1"] }

/-- C5 counterexample: with the window destroyed, `closeTab` is not a no-op.
It still removes the tab from the collection and the order, and the
replacement default tab is not created, leaving the collection empty. -/
theorem C5_counterexample :
    deadState.mainWindowAlive = false ∧
    deadState.tabOrder = ["tab-1"] ∧
    (closeTab deadState (some "tab-1")).tabOrder = [] ∧
    (closeTab deadState (some "tab-1")).tabs = [] := by
  decide

/-- C5 (amended): with the window absent, `createTab`, `activateTab` and
`cycleTabs` leave the collection, order and active id unchanged, but
`closeTab` has no window-liveness guard: it still removes an existing tab
from the collection and the order (and the emptied collection gets no
replacement tab). -/
theorem C5_window_absent (st : TabState) (h : st.mainWindowAlive = false) :
    (∀ u a, (createTab st u a none).1.tabs = st.tabs ∧
      (createTab st u a none).1.tabOrder = st.tabOrder ∧
      (createTab st u a none).1.activeTabId = st.activeTabId) ∧
    (∀ i, activateTab st i = st) ∧
    (∀ rev, cycleTabs st rev = st) ∧
    (∀ tid, tid ≠ "" → (mapGet st.tabs tid).isSome = true →
      (closeTab st (some tid)).tabOrder = st.tabOrder.erase tid ∧
      (closeTab st (some tid)).tabs = mapDelete st.tabs tid) := by
  refine ⟨?_, ?_, ?_, ?_⟩
  · intro u a
    rw [createTab_dead _ _ _ h]
    exact ⟨rfl, rfl, rfl⟩
  · intro i
    exact activateTab_dead i h
  · intro rev
    simp only [cycleTabs]
    repeat' split
    all_goals first | rfl | exact activateTab_dead _ h
  · intro tid hne hget
    obtain ⟨t, ht⟩ := Option.isSome_iff_exists.mp hget
    simp only [closeTab]
    rw [if_neg (by simp [jsFalsyOpt, hne]), ht]
    split
    · rename_i heq
      simp at heq
    · split
      · simp [createTab, h]
      · split
        · split
          · exact ⟨rfl, rfl⟩
          · split
            · simp [activateTab, h]
            · exact ⟨rfl, rfl⟩
        · exact ⟨rfl, rfl⟩

theorem C5_witness :
    deadState.mainWindowAlive = false ∧
    (createTab deadState none true none).1.tabOrder = deadState.tabOrder ∧
    activateTab deadState "tab-1" = deadState ∧
    cycleTabs deadState false = deadState ∧
    ("tab-1" : String) ≠ "" ∧
    (mapGet deadState.tabs "tab-1").isSome = true ∧
    (closeTab deadState (some "tab-1")).tabOrder = deadState.tabOrder.erase "tab-1" :=
  ⟨rfl, ((C5_window_absent deadState rfl).1 none true).2.1,
    (C5_window_absent deadState rfl).2.1 "tab-1",
    (C5_window_absent deadState rfl).2.2.1 false,
    by decide, by decide,
    ((C5_window_absent deadState rfl).2.2.2 "tab-1" (by decide) (by decide)).1⟩

/-- C6 counterexample: a given URL that fails the secure-URL check yields a
tab at `https://www.figma.com` (FIGMA_HOME), not the "recent files" address
claimed. -/
theorem C6_counterexample :
    demoState.mainWindowAlive = true ∧
    (createTab demoState (some "http://example.com") true none).2 = some "tab-1" ∧
    mapGet (createTab demoState (some "http://example.com") true none).1.tabs "tab-1" =
      some { id := "tab-1", title := "Figma", url := "https://www.figma.com",
             isLoading := false, canGoBack := false, canGoForward := false } ∧
    ("https://www.figma.com" : String) ≠ "https://www.figma.com/files/recent" := by
  decide

/-- C6 (amended): when no URL is given the new tab's URL is the "recent
files" address; when the given URL fails the secure-URL check the new tab's
URL falls back to the target site home `https://www.figma.com` instead. -/
theorem C6_default_urls (st : TabState) (halive : st.mainWindowAlive = true) :
    (∀ act, mapGet (createTab st none act none).1.tabs (createTabId st none) =
        some (newTabRecord (createTabId st none) FIGMA_RECENTS) ∧
      (newTabRecord (createTabId st none) FIGMA_RECENTS).url = FIGMA_RECENTS) ∧
    (∀ u act, parseHttpsUrl u = none →
      mapGet (createTab st (some u) act none).1.tabs (createTabId st none) =
        some (newTabRecord (createTabId st none) u) ∧
      (newTabRecord (createTabId st none) u).url = FIGMA_HOME) := by
  have hr : (parseHttpsUrl FIGMA_RECENTS).isSome = true := by decide
  constructor
  · intro act
    refine ⟨?_, ?_⟩
    · simpa using createTab_alive_mem_new none act none halive
    · simp [newTabRecord, hr]
  · intro u act hu
    refine ⟨?_, ?_⟩
    · simpa using createTab_alive_mem_new (some u) act none halive
    · simp [newTabRecord, hu]

theorem C6_witness :
    demoState.mainWindowAlive = true ∧
    mapGet (createTab demoState none true none).1.tabs (createTabId demoState none) =
      some (newTabRecord (createTabId demoState none) FIGMA_RECENTS) ∧
    parseHttpsUrl "http://example.com" = none ∧
    (newTabRecord (createTabId demoState none) "http://example.com").url = FIGMA_HOME :=
  ⟨rfl, ((C6_default_urls demoState rfl).1 true).1, by decide,
    ((C6_default_urls demoState rfl).2 "http://example.com" true (by decide)).2⟩

theorem tabWindowOpen_fst (st : TabState) (u r : String) :
    (tabWindowOpen st u r).1 = ordinaryPopupDecision u r := by
  unfold tabWindowOpen ordinaryPopupDecision
  repeat' split
  all_goals rfl

/-- C8 counterexample: for destination `https://www.figma.com/file/abc` and
referrer `https://www.figma.com/files/recent`, an ordinary tab's handler
redirects into a new tab while the auth popup's own handler deflects
externally, so the popup is not governed by the same popup policy. -/
theorem C8_counterexample :
    ordinaryPopupDecision "https://www.figma.com/file/abc"
        "https://www.figma.com/files/recent" = PopupVerdict.redirectToNewTab ∧
    popupWindowOpenDecision "https://www.figma.com/file/abc"
        "https://www.figma.com/files/recent" = PopupVerdict.deflectExternal ∧
    popupWindowOpenDecision "https://www.figma.com/file/abc"
        "https://www.figma.com/files/recent" ≠
      ordinaryPopupDecision "https://www.figma.com/file/abc"
        "https://www.figma.com/files/recent" := by
  decide

/-- C8 (amended): a transient auth popup shares the tab handler's
will-navigate policy and its allow-auth-popup predicate, but it has no
"redirect into a new tab" case: whenever the ordinary handler would
redirect, the popup's handler deflects externally instead; on every other
input the two popup decisions agree. -/
theorem C8_popup_recursion (st : TabState) (u r : String) (tab : Tab) :
    ((tabWindowOpen st u r).1 = ordinaryPopupDecision u r) ∧
    (popupWindowOpenDecision u r =
      match ordinaryPopupDecision u r with
      | PopupVerdict.redirectToNewTab => PopupVerdict.deflectExternal
      | v => v) ∧
    (popupWillNavigateDecision u = (tabWillNavigate tab u).1) := by
  refine ⟨tabWindowOpen_fst st u r, ?_, ?_⟩
  · unfold popupWindowOpenDecision ordinaryPopupDecision
    by_cases hA : shouldOpenAuthPopup u r = true <;>
      by_cases hF : isFigmaUrl u = true <;> simp [hA, hF]
  · unfold popupWillNavigateDecision tabWillNavigate
    by_cases hN : isAllowedAuthOrFigmaUrl u = true <;> simp [hN]

/-- C9 counterexample: the empty string is not a parseable URL, yet the
placeholder classifier returns `true` on it, so "unparseable input
classifies as false" does not hold for every classifier predicate. -/
theorem C9_counterexample :
    parseHttpsUrl "" = none ∧ isAboutBlankUrl "" = true := by
  decide

/-- C9 (amended): every classifier is a total boolean function (the failed
platform parse is the `none` case, not an exception), and on input that
fails the secure-URL parse the URL-based classifiers all fail closed;
`isAboutBlankUrl` instead classifies the empty string and the blank-page
sentinel as placeholder by design. -/
theorem C9_unparseable_fails_closed (s : String) (h : parseHttpsUrl s = none) :
    isFigmaUrl s = false ∧ isOAuthUrl s = false ∧ canRestoreUrl s = false ∧
    isAllowedAuthOrFigmaUrl s = false := by
  unfold isAllowedAuthOrFigmaUrl isFigmaUrl isOAuthUrl canRestoreUrl
  simp [h]

theorem C9_witness :
    parseHttpsUrl "not a url" = none ∧
    (isFigmaUrl "not a url" = false ∧ isOAuthUrl "not a url" = false ∧
      canRestoreUrl "not a url" = false ∧
      isAllowedAuthOrFigmaUrl "not a url" = false) :=
  ⟨by decide, C9_unparseable_fails_closed "not a url" (by decide)⟩

/-- C10: a tab's title is never empty: it is initialized to the fixed
placeholder "Figma" at creation, and a page-title update with an empty title
resets it to "Figma" rather than clearing it. -/
theorem C10_title_placeholder (st : TabState) (u : Option String) (act : Bool)
    (tab : Tab) (t : String) (halive : st.mainWindowAlive = true) :
    mapGet (createTab st u act none).1.tabs (createTabId st none) =
      some (newTabRecord (createTabId st none) (u.getD FIGMA_RECENTS)) ∧
    (newTabRecord (createTabId st none) (u.getD FIGMA_RECENTS)).title = "Figma" ∧
    (pageTitleUpdated tab t).title = (if t = "" then "Figma" else t) ∧
    (pageTitleUpdated tab t).title ≠ "" := by
  refine ⟨createTab_alive_mem_new u act none halive, rfl, rfl, ?_⟩
  by_cases ht : t = "" <;> simp [pageTitleUpdated, ht]

theorem C10_witness :
    demoState.mainWindowAlive = true ∧
    (newTabRecord (createTabId demoState none) FIGMA_RECENTS).title = "Figma" ∧
    (pageTitleUpdated demoTab "").title = "Figma" ∧
    (pageTitleUpdated demoTab "").title ≠ "" :=
  ⟨rfl, (C10_title_placeholder demoState none true demoTab "" rfl).2.1,
    by decide,
    (C10_title_placeholder demoState none true demoTab "" rfl).2.2.2⟩

/-! ### Persistence round-trip lemmas -/

/-- URL stored for an id in the tab map (the persisted `tab.url`). -/
def tabUrl (tabs : List (String × Tab)) (id : String) : String :=
  match mapGet tabs id with
  | some t => t.url
  | none => ""

theorem canRestoreUrl_parse {u : String} (h : canRestoreUrl u = true) :
    (parseHttpsUrl u).isSome = true := by
  unfold canRestoreUrl at h
  simp only [Bool.and_eq_true] at h
  exact h.1

theorem mapGet_of_pairs (l : List String) (f : String → Tab) (j : String) :
    mapGet (l.map (fun id => (id, f id))) j =
      if j ∈ l then some (f j) else none := by
  induction l with
  | nil => simp [mapGet]
  | cons i rest ih =>
    by_cases hij : i = j
    · subst hij
      simp [mapGet]
    · simp [mapGet, hij, ih, Ne.symm hij]

theorem load_fold (es : List PersistedTab) :
    ∀ acc : Nat × List RestoredTab,
      (es.foldl loadStep acc).2 =
        acc.2 ++ (es.filter (fun e => canRestoreUrl e.url)).map
          (fun e => ({ id := e.id, url := e.url } : RestoredTab)) := by
  induction es with
  | nil => intro acc; simp
  | cons e rest ih =>
    intro acc
    rw [List.foldl_cons, ih (loadStep acc e), List.filter_cons]
    by_cases hc : canRestoreUrl e.url = true
    · have h2 : (loadStep acc e).2 = acc.2 ++ [{ id := e.id, url := e.url }] := by
        simp [loadStep, hc]
      rw [h2]
      simp [hc]
    · have h2 : (loadStep acc e).2 = acc.2 := by simp [loadStep, hc]
      rw [h2]
      simp [hc]

theorem load_persist (st : TabState) (c : Nat) :
    (loadSavedTabState c (persistPayload st)).2.activeTabId = st.activeTabId ∧
    (loadSavedTabState c (persistPayload st)).2.tabs =
      ((st.tabOrder.filterMap (mapGet st.tabs)).filter
          (fun t => canRestoreUrl t.url)).map
        (fun t => ({ id := t.id, url := t.url } : RestoredTab)) := by
  constructor
  · rfl
  · show (((persistPayload st).tabs).foldl loadStep (c, [])).2 = _
    rw [load_fold]
    simp [persistPayload, List.filter_map, Function.comp]
    rfl

theorem entries_by_order (tabs : List (String × Tab))
    (hid : ∀ p ∈ tabs, p.2.id = p.1) :
    ∀ l : List String,
      ((l.filterMap (mapGet tabs)).filter (fun t => canRestoreUrl t.url)).map
        (fun t => ({ id := t.id, url := t.url } : RestoredTab)) =
      (l.filter (fun id =>
        match mapGet tabs id with
        | some t => canRestoreUrl t.url
        | none => false)).map
        (fun id => ({ id := id, url := tabUrl tabs id } : RestoredTab)) := by
  intro l
  induction l with
  | nil => rfl
  | cons id rest ih =>
    rw [List.filterMap_cons, List.filter_cons]
    cases hg : mapGet tabs id with
    | none => simpa [hg] using ih
    | some t =>
      have hidt : t.id = id := hid (id, t) (mapGet_mem hg)
      by_cases hc : canRestoreUrl t.url = true
      · simp [hg, hc, List.filter_cons, hidt, tabUrl, ih]
      · simp [hg, hc, ih]

theorem restore_fold_inactive (es : List RestoredTab) :
    ∀ s : TabState, s.mainWindowAlive = true →
      jsFalsyOpt s.activeTabId = false →
      (es.map (fun e => e.id)).Nodup →
      (∀ e ∈ es, e.id ∉ s.tabs.map Prod.fst) →
      (es.foldl restoreStep s).tabOrder = s.tabOrder ++ es.map (fun e => e.id) ∧
      (es.foldl restoreStep s).tabs =
        s.tabs ++ es.map (fun e => (e.id, newTabRecord e.id e.url)) ∧
      (es.foldl restoreStep s).activeTabId = s.activeTabId ∧
      (es.foldl restoreStep s).mainWindowAlive = true := by
  induction es with
  | nil =>
    intro s h1 _ _ _
    exact ⟨by simp, by simp, rfl, h1⟩
  | cons e rest ih =>
    intro s h1 h2 hnodup hdisj
    have hfresh' : createTabId s (some e.id) ∉ s.tabs.map Prod.fst := by
      simpa [createTabId] using hdisj e (List.mem_cons_self _ _)
    have horder := createTab_alive_tabOrder (some e.url) false (some e.id) h1
    have htabs := createTab_alive_tabs (some e.url) false (some e.id) h1 hfresh'
    have hact := createTab_alive_active (some e.url) false (some e.id) h1
    rw [h2] at hact
    simp only [Bool.or_self, Bool.false_eq_true, if_false] at hact
    have hs1order : (restoreStep s e).tabOrder = s.tabOrder ++ [e.id] := by
      simp [restoreStep, horder, createTabId]
    have hs1tabs : (restoreStep s e).tabs =
        s.tabs ++ [(e.id, newTabRecord e.id e.url)] := by
      simp [restoreStep, htabs, createTabId]
    have hs1act : (restoreStep s e).activeTabId = s.activeTabId := by
      simp [restoreStep, hact]
    have hs1alive : (restoreStep s e).mainWindowAlive = true := by
      simp [restoreStep, createTab_alive, h1]
    simp only [List.map_cons, List.nodup_cons] at hnodup
    have hjs : jsFalsyOpt (restoreStep s e).activeTabId = false := by
      rw [hs1act]
      exact h2
    have hdisj' : ∀ e' ∈ rest, e'.id ∉ (restoreStep s e).tabs.map Prod.fst := by
      intro e' he'
      rw [hs1tabs]
      simp only [List.map_append, List.map_cons, List.map_nil, List.mem_append,
        List.mem_singleton]
      push_neg
      refine ⟨hdisj e' (List.mem_cons_of_mem _ he'), ?_⟩
      intro hmem
      apply hnodup.1
      rw [← hmem]
      exact List.mem_map_of_mem _ he'
    obtain ⟨r1, r2, r3, r4⟩ := ih (restoreStep s e) hs1alive hjs hnodup.2 hdisj'
    rw [List.foldl_cons]
    refine ⟨?_, ?_, ?_, r4⟩
    · rw [r1, hs1order]
      simp
    · rw [r2, hs1tabs]
      simp
    · rw [r3, hs1act]

theorem restore_fold_base (es : List RestoredTab) (s : TabState)
    (h1 : s.mainWindowAlive = true) (h2 : s.tabs = []) (h3 : s.activeTabId = none)
    (hnodup : (es.map (fun e => e.id)).Nodup)
    (hids : ∀ e ∈ es, e.id ≠ "") :
    (es.foldl restoreStep s).tabOrder = s.tabOrder ++ es.map (fun e => e.id) ∧
    (es.foldl restoreStep s).tabs = es.map (fun e => (e.id, newTabRecord e.id e.url)) ∧
    (es.foldl restoreStep s).activeTabId = (es.map (fun e => e.id)).head? ∧
    (es.foldl restoreStep s).mainWindowAlive = true := by
  cases es with
  | nil => exact ⟨by simp, by simp [h2], by simp [h3], h1⟩
  | cons e rest =>
    have hfresh' : createTabId s (some e.id) ∉ s.tabs.map Prod.fst := by simp [h2]
    have horder := createTab_alive_tabOrder (some e.url) false (some e.id) h1
    have htabs := createTab_alive_tabs (some e.url) false (some e.id) h1 hfresh'
    have hact := createTab_alive_active (some e.url) false (some e.id) h1
    rw [h3] at hact
    simp only [jsFalsyOpt, Bool.or_true, if_true] at hact
    have hs1order : (restoreStep s e).tabOrder = s.tabOrder ++ [e.id] := by
      simp [restoreStep, horder, createTabId]
    have hs1tabs : (restoreStep s e).tabs = [(e.id, newTabRecord e.id e.url)] := by
      simp [restoreStep, htabs, h2, createTabId]
    have hs1act : (restoreStep s e).activeTabId = some e.id := by
      simp [restoreStep, hact, createTabId]
    have hs1alive : (restoreStep s e).mainWindowAlive = true := by
      simp [restoreStep, createTab_alive, h1]
    simp only [List.map_cons, List.nodup_cons] at hnodup
    have hjs : jsFalsyOpt (restoreStep s e).activeTabId = false := by
      rw [hs1act]
      simp [jsFalsyOpt, hids e (List.mem_cons_self _ _)]
    have hdisj : ∀ e' ∈ rest, e'.id ∉ (restoreStep s e).tabs.map Prod.fst := by
      intro e' he'
      rw [hs1tabs]
      simp only [List.map_cons, List.map_nil, List.mem_singleton]
      intro hmem
      apply hnodup.1
      rw [← hmem]
      exact List.mem_map_of_mem _ he'
    obtain ⟨r1, r2, r3, r4⟩ :=
      restore_fold_inactive rest (restoreStep s e) hs1alive hjs hnodup.2 hdisj
    rw [List.foldl_cons]
    refine ⟨?_, ?_, ?_, r4⟩
    · rw [r1, hs1order]
      simp
    · rw [r2, hs1tabs]
      simp
    · rw [r3, hs1act]
      simp

/-- The module state at startup, before `restoreTabs` runs: live window, no
tabs, no active id (the counter may already have been advanced). -/
def freshState (c : Nat) : TabState :=
  { mainWindowAlive := true, activeTabId := none, tabIdCounter := c,
    tabs := [], tabOrder := [] }

/-- C7: saving the persisted snapshot of a well-formed live collection and
then loading it at startup restores exactly the subset of tabs whose URL is
restorable, in the original order and with the original ids and URLs; the
previously-active id is activated if its tab was restored, else the first
restored tab is activated. -/
theorem C7_round_trip (st : TabState) (c : Nat) (hinv : TabInv st)
    (hempty : "" ∉ st.tabOrder) (hrest : restorableIds st ≠ []) :
    (restoreTabs (freshState c) (some (persistPayload st))).tabOrder =
      restorableIds st ∧
    (∀ id t, mapGet st.tabs id = some t → canRestoreUrl t.url = true →
      mapGet (restoreTabs (freshState c) (some (persistPayload st))).tabs id =
        some (newTabRecord id t.url) ∧
      (newTabRecord id t.url).url = t.url) ∧
    (restoreTabs (freshState c) (some (persistPayload st))).activeTabId =
      (match st.activeTabId with
        | some a => if a ∈ restorableIds st then some a else (restorableIds st).head?
        | none => (restorableIds st).head?) := by
  obtain ⟨h1, h2, h3, h4, h5⟩ := hinv
  have hload := load_persist st (freshState c).tabIdCounter
  have hentries : (loadSavedTabState (freshState c).tabIdCounter
        (persistPayload st)).2.tabs =
      (restorableIds st).map
        (fun id => ({ id := id, url := tabUrl st.tabs id } : RestoredTab)) := by
    rw [hload.2, entries_by_order st.tabs h5 st.tabOrder]
    rfl
  obtain ⟨first, tl, hcons⟩ := List.exists_cons_of_ne_nil hrest
  have hidmap : ((restorableIds st).map
      (fun id => ({ id := id, url := tabUrl st.tabs id } : RestoredTab))).map
        (fun e => e.id) = restorableIds st := by
    rw [List.map_map]
    exact List.map_id' _
  have hnodup2 : (((restorableIds st).map
      (fun id => ({ id := id, url := tabUrl st.tabs id } : RestoredTab))).map
        (fun e => e.id)).Nodup := by
    rw [hidmap]
    exact h2.filter _
  have hids2 : ∀ e ∈ (restorableIds st).map
      (fun id => ({ id := id, url := tabUrl st.tabs id } : RestoredTab)), e.id ≠ "" := by
    intro e he
    obtain ⟨id, hidmem, rfl⟩ := List.mem_map.mp he
    intro hbad
    apply hempty
    rw [← hbad]
    exact List.mem_of_mem_filter hidmem
  simp only [restoreTabs]
  rw [hentries, hload.1]
  rw [if_neg (by rw [hcons]; simp)]
  obtain ⟨r1, r2, r3, r4⟩ := restore_fold_base
    ((restorableIds st).map (fun id => ({ id := id, url := tabUrl st.tabs id } : RestoredTab)))
    { freshState c with tabIdCounter :=
        (loadSavedTabState (freshState c).tabIdCounter (persistPayload st)).1 }
    rfl rfl rfl hnodup2 hids2
  set ST1 := ((restorableIds st).map
      (fun id => ({ id := id, url := tabUrl st.tabs id } : RestoredTab))).foldl restoreStep
    { freshState c with tabIdCounter :=
        (loadSavedTabState (freshState c).tabIdCounter (persistPayload st)).1 } with hST1
  have horder : ST1.tabOrder = restorableIds st := by
    rw [r1, hidmap]
    simp [freshState]
  have htabs1 : ST1.tabs = (restorableIds st).map
      (fun id => (id, newTabRecord id (tabUrl st.tabs id))) := by
    rw [r2, List.map_map]
    rfl
  have hact1 : ST1.activeTabId = some first := by
    rw [r3, hcons]
    simp
  have halive1 : ST1.mainWindowAlive = true := r4
  have hget1 : ∀ j, mapGet ST1.tabs j =
      if j ∈ restorableIds st then some (newTabRecord j (tabUrl st.tabs j)) else none := by
    intro j
    rw [htabs1]
    exact mapGet_of_pairs _ _ j
  have hPart2 : ∀ id t, mapGet st.tabs id = some t → canRestoreUrl t.url = true →
      mapGet ST1.tabs id = some (newTabRecord id t.url) ∧
      (newTabRecord id t.url).url = t.url := by
    intro id t hg hc
    have hidor : id ∈ st.tabOrder := by
      rw [← h1, ← mapGet_isSome_iff]
      simp [hg]
    have hidmem : id ∈ restorableIds st := by
      refine List.mem_filter.mpr ⟨hidor, ?_⟩
      simp [hg, hc]
    constructor
    · rw [hget1 id, if_pos hidmem]
      simp [tabUrl, hg]
    · simp [newTabRecord, canRestoreUrl_parse hc]
  have hAT : ∀ x, x ∈ restorableIds st →
      (activateTab ST1 x).tabOrder = restorableIds st ∧
      (activateTab ST1 x).tabs = ST1.tabs ∧
      (activateTab ST1 x).activeTabId = some x := by
    intro x hx
    refine ⟨by rw [activateTab_tabOrder, horder], activateTab_tabs _ _, ?_⟩
    apply activateTab_active halive1
    rw [hget1 x, if_pos hx]
    rfl
  have hfirstmem : first ∈ restorableIds st := by
    rw [hcons]
    exact List.mem_cons_self _ _
  have hordc : ST1.tabOrder = first :: tl := horder.trans hcons
  cases hA : st.activeTabId with
  | none =>
    simp only [activateFirst, hordc]
    obtain ⟨a1, a2, a3⟩ := hAT first hfirstmem
    refine ⟨a1, ?_, ?_⟩
    · intro id t hg hc
      rw [a2]
      exact hPart2 id t hg hc
    · rw [a3, hcons]
      rfl
  | some a =>
    dsimp only
    by_cases hmem : a ∈ restorableIds st
    · have hane : a ≠ "" := by
        intro hbad
        apply hempty
        rw [← hbad]
        exact List.mem_of_mem_filter hmem
      have hsome : (mapGet ST1.tabs a).isSome = true := by
        rw [hget1 a, if_pos hmem]
        rfl
      rw [if_pos ⟨hane, hsome⟩, if_pos hmem]
      obtain ⟨a1, a2, a3⟩ := hAT a hmem
      refine ⟨a1, ?_, a3⟩
      intro id t hg hc
      rw [a2]
      exact hPart2 id t hg hc
    · have hnone : (mapGet ST1.tabs a).isSome = false := by
        rw [hget1 a, if_neg hmem]
        rfl
      rw [if_neg (by
        rintro ⟨-, hbad⟩
        rw [hnone] at hbad
        exact Bool.false_ne_true hbad), if_neg hmem]
      simp only [activateFirst, hordc]
      obtain ⟨a1, a2, a3⟩ := hAT first hfirstmem
      refine ⟨a1, ?_, ?_⟩
      · intro id t hg hc
        rw [a2]
        exact hPart2 id t hg hc
      · rw [a3, hcons]
        rfl

/-- A live 3-tab collection mixing restorable (Figma, Google auth) and
non-restorable (external) URLs, with the non-restorable tab active. -/
def mixState : TabState :=
  { mainWindowAlive := true, activeTabId := some "tab-2", tabIdCounter := 3,
    tabs :=
      [("tab-1", { id := "tab-1", title := "Figma",
                   url := "https://www.figma.com/files/recent",
                   isLoading := false, canGoBack := false, canGoForward := false }),
       ("tab-2", { id := "tab-2", title := "Docs",
                   url := "https://example.com/docs",
                   isLoading := false, canGoBack := false, canGoForward := false }),
       ("tab-3", { id := "tab-3", title := "Login",
                   url := "https://accounts.google.com/signin",
                   isLoading := false, canGoBack := false, canGoForward := false })],
    tabOrder := ["tab-1", "tab-2", "tab-3"] }

theorem mixState_inv : TabInv mixState := by
  refine ⟨by decide, by decide, ?_, ?_, by decide⟩
  · intro a ha
    have ha' : some "tab-2" = some a := ha
    injection ha' with h
    subst h
    decide
  · intro k hk
    have hmem : mkId k = "tab-1" ∨ mkId k = "tab-2" ∨ mkId k = "tab-3" := by
      simpa [mixState] using hk
    show k ≤ 3
    rcases hmem with h | h | h
    · have := mkId_inj (h.trans (by decide : ("tab-1" : String) = mkId 1))
      omega
    · have := mkId_inj (h.trans (by decide : ("tab-2" : String) = mkId 2))
      omega
    · have := mkId_inj (h.trans (by decide : ("tab-3" : String) = mkId 3))
      omega

theorem C7_witness :
    mixState.mainWindowAlive = true ∧
    ("" ∉ mixState.tabOrder) ∧
    restorableIds mixState ≠ [] ∧
    restorableIds mixState = ["tab-1", "tab-3"] ∧
    ((restoreTabs (freshState 0) (some (persistPayload mixState))).tabOrder =
      restorableIds mixState) ∧
    (mapGet (restoreTabs (freshState 0) (some (persistPayload mixState))).tabs
        "tab-1" =
      some (newTabRecord "tab-1" "https://www.figma.com/files/recent")) ∧
    ((restoreTabs (freshState 0) (some (persistPayload mixState))).activeTabId =
      (match mixState.activeTabId with
        | some a =>
          if a ∈ restorableIds mixState then some a
          else (restorableIds mixState).head?
        | none => (restorableIds mixState).head?)) ∧
    (restoreTabs (freshState 0) (some (persistPayload mixState))).activeTabId =
      some "tab-1" :=
  ⟨rfl, by decide, by decide, by decide,
    (C7_round_trip mixState 0 mixState_inv (by decide) (by decide)).1,
    ((C7_round_trip mixState 0 mixState_inv (by decide) (by decide)).2.1 "tab-1"
      { id := "tab-1", title := "Figma", url := "https://www.figma.com/files/recent",
        isLoading := false, canGoBack := false, canGoForward := false }
      (by decide) (by decide)).1,
    (C7_round_trip mixState 0 mixState_inv (by decide) (by decide)).2.2,
    by decide⟩
